import Mathlib

/-!
Verification of the TOV solver (`src/tovsolver/tov.py`, `src/tovsolver/constants.py`).

The numerical code is shallowly embedded over exact rationals (floating point
idealised as exact decimal constants); the tidal post-processing, which uses a
logarithm, is embedded over the reals.  The external numerical-library
capabilities (cubic interpolants, the adaptive ODE integrator, the nonlinear
root finder) are abstracted as function parameters; everything the repository
itself computes is translated operation by operation.
-/

namespace TOVModel

/-! Constants from `src/tovsolver/constants.py`, as exact rationals. -/

def G : ℚ := 6.6730831e-8

def c : ℚ := 2.99792458e10

def Msun : ℚ := 1.988435e33

def MeV_fm3_to_pa_cgs : ℚ := 1.6021766e33

def km_to_mSun : ℚ := G / c ^ 2

/-- `pi = math.pi` in `constants.py`; idealised as its shortest decimal form. -/
def pi : ℚ := 3.141592653589793

/-- Conversion factor applied to energy densities: `MeV_fm3_to_pa_cgs / c**2`. -/
def conv_en : ℚ := MeV_fm3_to_pa_cgs / c ^ 2

/-! `TOV.dedp` (tov.py lines 162-176): sixth-order finite-difference dε/dP.
`en_dens` is the EOS interpolant `self.en_dens`, `p_R` the profile pressure
interpolant from `R_dep`; both are abstracted as functions. -/

def dedp (en_dens p_R : ℚ → ℚ) (r : ℚ) : ℚ :=
  let p := p_R r
  let dp := p * 0.005
  let el_3 := en_dens (p - 3 * dp)
  let el_2 := en_dens (p - 2 * dp)
  let el_1 := en_dens (p - 1 * dp)
  let er_3 := en_dens (p + 3 * dp)
  let er_2 := en_dens (p + 2 * dp)
  let er_1 := en_dens (p + 1 * dp)
  (-1 / 60 * el_3 + 3 / 20 * el_2 - 3 / 4 * el_1 + 3 / 4 * er_1 - 3 / 20 * er_2 + 1 / 60 * er_3) / dp

/-! `TOV.tov_eq` (tov.py lines 201-214): structure derivatives with the
out-of-bounds pressure guard. -/

def tov_eq (en_dens : ℚ → ℚ) (min_p max_p : ℚ) (y : ℚ × ℚ) (r : ℚ) : ℚ × ℚ :=
  let P := y.1
  let m := y.2
  if P < min_p ∨ P > max_p then (0, 0)
  else
    let eden := en_dens P
    let dPdr0 := -G * (eden + P / c ^ 2) * (m + 4.0 * pi * r ^ 3 * P / c ^ 2)
    let dPdr := dPdr0 / (r * (r - 2.0 * G * m / c ^ 2))
    let dmdr := 4.0 * pi * r ^ 2 * eden
    (dPdr, dmdr)

/-! `TOV.love_eq` (tov.py lines 178-199): tidal perturbation derivatives.
The `try: p_R(r) / except ValueError` guard around the radial pressure
interpolant is embedded as an explicit domain check against the interpolant's
fitted range `[rlo, rhi]` (scipy's `interp1d` raises `ValueError` exactly when
evaluated outside the fitted abscissa range). -/

def love_eq (en_dens : ℚ → ℚ) (rlo rhi : ℚ) (e_R p_R m_R : ℚ → ℚ)
    (param : ℚ × ℚ) (r : ℚ) : ℚ × ℚ :=
  let beta := param.1
  let H := param.2
  if r < rlo ∨ r > rhi then (100000, 100000)
  else
    let de_dp := dedp en_dens p_R r
    let dbetadr0 := H * (-2 * pi * G / c ^ 2 *
          (5 * e_R r + 9 * p_R r / c ^ 2 + de_dp * c ^ 2 * (e_R r + p_R r / c ^ 2))
        + 3 / r ^ 2
        + 2 * (1 - 2 * m_R r / r * km_to_mSun)⁻¹ *
            (m_R r / r ^ 2 * km_to_mSun + G / c ^ 4 * 4 * pi * r * p_R r) ^ 2)
      + beta / r *
          (-1 + m_R r / r * km_to_mSun + 2 * pi * r ^ 2 * G / c ^ 2 * (e_R r - p_R r / c ^ 2))
    let dbetadr := dbetadr0 * (2 * (1 - 2 * m_R r / r * km_to_mSun)⁻¹)
    let dHdr := beta
    (dbetadr, dHdr)

/-! `TOV.check_density` (tov.py lines 216-222): domain check on the central
density.  The raised `Exception`'s message interpolates the density and the
two bounds, each divided back to MeV/fm³ units; the embedded error value
carries exactly those three reported numbers. -/

structure DomainError where
  value : ℚ
  minVal : ℚ
  maxVal : ℚ
  deriving DecidableEq, Repr

def check_density (min_dens max_dens dens : ℚ) : Except DomainError Unit :=
  if dens < min_dens ∨ dens > max_dens then
    .error ⟨dens / conv_en, min_dens / conv_en, max_dens / conv_en⟩
  else .ok ()

/-! `np.arange(start, stop, step)` for a positive step: `start + step*i` for
`i = 0, 1, ...`, with length `⌈(stop - start)/step⌉` (0 when that is
negative). -/

def arange (start stop step : ℚ) : List ℚ :=
  (List.range (max 0 ⌈(stop - start) / step⌉).toNat).map (fun i => start + step * i)

/-! The prefix of `TOV.solve` (tov.py lines 261-271): unit conversion, density
check, grid construction and the initial conditions handed to `odeint`.
`press` and `en_dens` abstract the two EOS interpolants.  On success it
returns `(r[0], P, m)`: the first grid point, the initial pressure and the
initial mass for the ODE integration. -/

def solve_init (press en_dens : ℚ → ℚ) (min_dens max_dens c_dens rmax dr : ℚ) :
    Except DomainError (ℚ × ℚ × ℚ) := do
  let c_dens := c_dens * conv_en
  let _ ← check_density min_dens max_dens c_dens
  let r := arange dr (rmax + dr) dr
  let P := press c_dens
  let eden := en_dens P
  let m := 4.0 * pi * (r.headD 0) ^ 3 * eden
  return (r.headD 0, P, m)

/-! Surface detection and truncation in `TOV.solve` (tov.py lines 273-294).
`diff = (m_R[1:] - m_R[:-1]) / m_R[1:]` elementwise; the loop returns the
first index `i` with `diff[i] < dmrel and m_R[i] != 0`, else `-1`.  Negative
Python indices and slices are embedded explicitly (`pyGet`, `pySlice`). -/

def massDiff (m : List ℚ) : List ℚ :=
  (List.range (m.length - 1)).map (fun i => (m.getD (i + 1) 0 - m.getD i 0) / m.getD (i + 1) 0)

def findInd (dmrel : ℚ) (m : List ℚ) (i : ℕ) : Int :=
  if i < (massDiff m).length then
    if (massDiff m).getD i 0 < dmrel ∧ m.getD i 0 ≠ 0 then (i : Int)
    else findInd dmrel m (i + 1)
  else -1
termination_by (massDiff m).length - i

/-- Python `l[k]` for an in-range index, counting from the end when `k < 0`. -/
def pyGet (l : List ℚ) (k : Int) : ℚ :=
  if 0 ≤ k then l.getD k.toNat 0 else l.getD ((l.length : Int) + k).toNat 0

/-- Python `l[:k]`, counting from the end when `k < 0`. -/
def pySlice (l : List ℚ) (k : Int) : List ℚ :=
  if 0 ≤ k then l.take k.toNat else l.take ((l.length : Int) + k).toNat

/-! The tail of `TOV.solve` (tov.py lines 278-294), acting on the grid `r`
and the integrated columns `p_R`, `m_R` produced by `odeint`: find the surface
index, read off `M` and `R`, truncate the profile, map the truncated pressures
through the EOS interpolant, and convert `R` to km and `M` to solar masses. -/

def solve_tail (en_dens : ℚ → ℚ) (r p_R m_R : List ℚ) (dmrel : ℚ) :
    ℚ × ℚ × (List ℚ × List ℚ × List ℚ × List ℚ) :=
  let ind := findInd dmrel m_R 0
  let M := pyGet m_R (ind - 1)
  let R := pyGet r (ind - 1)
  let r2 := pySlice r ind
  let p2 := pySlice p_R ind
  let m2 := pySlice m_R ind
  let e2 := p2.map en_dens
  (R / 1e5, M / Msun, (r2, e2, p2, m2))

/-! `TOV.add_crust` (tov.py lines 115-160).  `scipy.optimize.root` is
abstracted: its result object carries the solution array `x` and a
convergence flag `success`.  The code reads `g['x'][0]` only; the tables are
lists of (energy density, pressure) pairs. -/

structure RootResult where
  x : ℚ
  success : Bool
  deriving DecidableEq, Repr

/-- The first crust loop (lines 134-139): append pairs while `en < n_glue`,
then `break`. -/
def crustPart (crust : List (ℚ × ℚ)) (n_glue : ℚ) : List (ℚ × ℚ) :=
  crust.takeWhile (fun q => decide (q.1 < n_glue))

/-- The second loop (lines 143-146): append every user pair with
`en >= n_glue`. -/
def userPart (user : List (ℚ × ℚ)) (n_glue : ℚ) : List (ℚ × ℚ) :=
  user.filter (fun q => decide (q.1 ≥ n_glue))

/-- Result state of `add_crust`: the merged table and the updated
`min_dens` / `min_p` bounds (`min(en_arr)`, `min(p_arr)`; Python's `min`
is defined only on a nonempty sequence, hence `Option`). -/
def add_crust (g : RootResult) (crust user : List (ℚ × ℚ)) :
    List (ℚ × ℚ) × Option ℚ × Option ℚ :=
  let n_glue := g.x
  let merged := crustPart crust n_glue ++ userPart user n_glue
  (merged, (merged.map Prod.fst).min?, (merged.map Prod.snd).min?)

/-! `TOV.__init__` (tov.py lines 64-65): `en_arr *= MeV_fm3_to_pa_cgs / c**2`
and `p_arr *= MeV_fm3_to_pa_cgs` are in-place numpy scalings of the caller's
arrays; the state passing makes the caller-visible arrays after construction
explicit as the returned pair. -/

def init_arrays (en_arr p_arr : List ℚ) : List ℚ × List ℚ :=
  (en_arr.map (fun x => x * (MeV_fm3_to_pa_cgs / c ^ 2)),
   p_arr.map (fun x => x * MeV_fm3_to_pa_cgs))

end TOVModel

namespace TOVTidal

/-! The post-processing of `TOV.solve_tidal` (tov.py lines 330-357), over ℝ
because of the logarithm in the Love-number formula.  Constants as in
`constants.py`. -/

noncomputable def Gr : ℝ := 6.6730831e-8

noncomputable def cr : ℝ := 2.99792458e10

noncomputable def MsunR : ℝ := 1.988435e33

noncomputable def km_to_mSunR : ℝ := Gr / cr ^ 2

/-- Output record of `solve_tidal`: the 7-element array
`[R/1e5, M/Msun, C, k2, y, beta, H]`. -/
structure TidalResult where
  R_km : ℝ
  M_sol : ℝ
  C : ℝ
  k2 : ℝ
  y : ℝ
  beta : ℝ
  H : ℝ

/-- `solve_tidal` after the inner `solve` call: `R`, `M` are the km / solar
mass values returned by `solve`; `r0` is the first entry of the truncated
radial grid (`r[0]`); `integrate` abstracts `odeint` on `love_eq`, mapping
the initial pair `[beta0, H0]` to the final row `solution[-1]`. -/
noncomputable def solve_tidal (R_solve M_solve r0 : ℝ) (integrate : ℝ → ℝ → ℝ × ℝ) : TidalResult :=
  let R := R_solve * 1e5
  let M := M_solve * MsunR
  let beta0 := 2 * r0
  let H0 := r0 ^ 2
  let sol := integrate beta0 H0
  let beta := sol.1
  let H := sol.2
  let y := R * beta / H
  let C := M / R * km_to_mSunR
  let k2 := 8 / 5 * C ^ 5 * (1 - 2 * C) ^ 2 * (2 + 2 * C * (y - 1) - y) *
    (2 * C * (6 - 3 * y + 3 * C * (5 * y - 8)) + 4 * C ^ 3 *
        (13 - 11 * y + C * (3 * y - 2) + 2 * C ^ 2 * (1 + y)) +
      3 * (1 - 2 * C) ^ 2 * (2 - y + 2 * C * (y - 1)) * Real.log (1 - 2 * C))⁻¹
  ⟨R / 1e5, M / MsunR, C, k2, y, beta, H⟩

end TOVTidal

namespace TOVModel

/-- C6: for every pressure strictly below the stored minimum pressure or
strictly above the stored maximum pressure, and every mass and radius, the
structure derivative function `tov_eq` returns exactly `[0, 0]` instead of
evaluating the interpolant. -/
theorem tov_eq_out_of_bounds_zero (en_dens : ℚ → ℚ) (min_p max_p P m r : ℚ)
    (h : P < min_p ∨ P > max_p) :
    tov_eq en_dens min_p max_p (P, m) r = (0, 0) := by
  simp only [tov_eq]
  exact if_pos h

theorem tov_eq_out_of_bounds_zero_witness :
    ((0 : ℚ) < 1 ∨ (0 : ℚ) > 2) ∧ tov_eq id 1 2 (0, 5) 7 = (0, 0) :=
  ⟨Or.inl (by norm_num), tov_eq_out_of_bounds_zero id 1 2 0 5 7 (Or.inl (by norm_num))⟩

/-- C7: for every radius outside the radial pressure interpolant's fitted
range, the tidal derivative function `love_eq` returns the fixed sentinel
pair `[100000, 100000]` instead of propagating the failure. -/
theorem love_eq_out_of_range_sentinel (en_dens : ℚ → ℚ) (rlo rhi : ℚ)
    (e_R p_R m_R : ℚ → ℚ) (beta H r : ℚ) (h : r < rlo ∨ r > rhi) :
    love_eq en_dens rlo rhi e_R p_R m_R (beta, H) r = (100000, 100000) := by
  simp only [love_eq]
  exact if_pos h

theorem love_eq_out_of_range_sentinel_witness :
    ((7 : ℚ) < 1 ∨ (7 : ℚ) > 5) ∧ love_eq id 1 5 id id id (3, 4) 7 = (100000, 100000) :=
  ⟨Or.inr (by norm_num),
   love_eq_out_of_range_sentinel id 1 5 id id id 3 4 7 (Or.inr (by norm_num))⟩

/-- C9: `dedp` equals the sixth-order central finite-difference combination
`(-1/60*e(P-3d) + 3/20*e(P-2d) - 3/4*e(P-d) + 3/4*e(P+d) - 3/20*e(P+2d)
+ 1/60*e(P+3d))/d`, where `P` is the profile pressure interpolant evaluated
at `r` and `d = 0.005*P`. -/
theorem dedp_sixth_order_stencil (en_dens p_R : ℚ → ℚ) (r : ℚ) :
    dedp en_dens p_R r =
      (-1 / 60 * en_dens (p_R r - 3 * (0.005 * p_R r))
        + 3 / 20 * en_dens (p_R r - 2 * (0.005 * p_R r))
        - 3 / 4 * en_dens (p_R r - 0.005 * p_R r)
        + 3 / 4 * en_dens (p_R r + 0.005 * p_R r)
        - 3 / 20 * en_dens (p_R r + 2 * (0.005 * p_R r))
        + 1 / 60 * en_dens (p_R r + 3 * (0.005 * p_R r))) / (0.005 * p_R r) := by
  have h : p_R r * 0.005 = 0.005 * p_R r := mul_comm _ _
  simp only [dedp, h, one_mul]

/-- C3: the crust-splice root-find result is used unconditionally: the
outcome of `add_crust` does not depend on the solver's convergence flag, and
no error is surfaced when `success = false` (the result type of the embedded
`add_crust` has no failure case at all, mirroring the code's unconditional
read of `g['x'][0]` at tov.py line 129). -/
theorem add_crust_ignores_convergence (x : ℚ) (crust user : List (ℚ × ℚ)) :
    add_crust ⟨x, false⟩ crust user = add_crust ⟨x, true⟩ crust user := rfl

end TOVModel

namespace TOVModel

/-- C10: construction scales the caller's two input arrays in place: after
`__init__`, every element of the passed energy-density array has been
multiplied by `MeV_fm3_to_pa_cgs / c**2` and every element of the passed
pressure array by `MeV_fm3_to_pa_cgs`; an array holding a nonzero entry is
not left unchanged. -/
theorem init_mutates_input_arrays (en_arr p_arr : List ℚ) (x : ℚ)
    (hx : x ∈ en_arr) (hx0 : x ≠ 0) :
    (init_arrays en_arr p_arr).1 = en_arr.map (fun v => v * (MeV_fm3_to_pa_cgs / c ^ 2)) ∧
    (init_arrays en_arr p_arr).2 = p_arr.map (fun v => v * MeV_fm3_to_pa_cgs) ∧
    (init_arrays en_arr p_arr).1 ≠ en_arr := by
  refine ⟨rfl, rfl, ?_⟩
  intro h
  simp only [init_arrays] at h
  obtain ⟨i, hi⟩ := List.mem_iff_getElem?.mp hx
  have h2 : (en_arr.map (fun v => v * (MeV_fm3_to_pa_cgs / c ^ 2)))[i]? = en_arr[i]? := by
    rw [h]
  rw [List.getElem?_map, hi] at h2
  have h3 : x * (MeV_fm3_to_pa_cgs / c ^ 2) = x := by simpa using h2
  have h4 : MeV_fm3_to_pa_cgs / c ^ 2 = 1 :=
    mul_left_cancel₀ hx0 (h3.trans (mul_one x).symm)
  norm_num [MeV_fm3_to_pa_cgs, c] at h4

theorem init_mutates_input_arrays_witness :
    ((2 : ℚ) ∈ [(2 : ℚ)] ∧ (2 : ℚ) ≠ 0) ∧
    (init_arrays [2] [3]).1 = [(2 : ℚ)].map (fun v => v * (MeV_fm3_to_pa_cgs / c ^ 2)) ∧
    (init_arrays [2] [3]).2 = [(3 : ℚ)].map (fun v => v * MeV_fm3_to_pa_cgs) ∧
    (init_arrays [2] [3]).1 ≠ [(2 : ℚ)] :=
  ⟨⟨by simp, by norm_num⟩, init_mutates_input_arrays [2] [3] 2 (by simp) (by norm_num)⟩

/-- C4: when the converted central density lies below the minimum or above
the maximum energy-density bound, `solve` stops with an error before any ODE
integration, and the error reports the offending value (back in MeV/fm³, so
exactly the caller's input) together with the valid range; for every central
density inside the bounds this error is not raised. -/
theorem solve_density_range_check (press en_dens : ℚ → ℚ) (mn mx c_dens rmax dr : ℚ) :
    (c_dens * conv_en < mn ∨ c_dens * conv_en > mx →
      solve_init press en_dens mn mx c_dens rmax dr =
        .error ⟨c_dens, mn / conv_en, mx / conv_en⟩) ∧
    (mn ≤ c_dens * conv_en ∧ c_dens * conv_en ≤ mx →
      ∀ e, solve_init press en_dens mn mx c_dens rmax dr ≠ .error e) := by
  constructor
  · intro h
    have hconv : conv_en ≠ 0 := by norm_num [conv_en, MeV_fm3_to_pa_cgs, c]
    simp only [solve_init, check_density, if_pos h, mul_div_cancel_right₀ _ hconv]
    rfl
  · rintro ⟨h1, h2⟩ e
    have h : ¬(c_dens * conv_en < mn ∨ c_dens * conv_en > mx) := by
      push_neg
      exact ⟨h1, h2⟩
    simp [solve_init, check_density, if_neg h]

theorem solve_density_range_check_witness :
    ((1 : ℚ) * conv_en < 2 * conv_en ∨ (1 : ℚ) * conv_en > 3 * conv_en) ∧
    solve_init id id (2 * conv_en) (3 * conv_en) 1 1 1 =
      .error ⟨1, 2 * conv_en / conv_en, 3 * conv_en / conv_en⟩ ∧
    ((2 * conv_en ≤ (5 / 2 : ℚ) * conv_en ∧ (5 / 2 : ℚ) * conv_en ≤ 3 * conv_en) ∧
      solve_init id id (2 * conv_en) (3 * conv_en) (5 / 2) 1 1 ≠ .error ⟨0, 0, 0⟩) := by
  have hpos : (0 : ℚ) < conv_en := by norm_num [conv_en, MeV_fm3_to_pa_cgs, c]
  have hlt : (1 : ℚ) * conv_en < 2 * conv_en := by nlinarith
  have hle1 : (2 : ℚ) * conv_en ≤ (5 / 2 : ℚ) * conv_en := by nlinarith
  have hle2 : ((5 / 2 : ℚ)) * conv_en ≤ 3 * conv_en := by nlinarith
  exact ⟨Or.inl hlt,
    (solve_density_range_check id id (2 * conv_en) (3 * conv_en) 1 1 1).1 (Or.inl hlt),
    ⟨hle1, hle2⟩,
    (solve_density_range_check id id (2 * conv_en) (3 * conv_en) (5 / 2) 1 1).2
      ⟨hle1, hle2⟩ ⟨0, 0, 0⟩⟩

end TOVModel

namespace TOVTidal

/-- C8: `solve_tidal` hands the abstract integrator the initial values
β₀ = 2·dr and H₀ = dr² (with dr = r[0], the first grid point), and returns
the 7-element array [R_km, M_solar, C, k2, y, β(R), H(R)] where
y = R·β(R)/H(R), C = (M/R)·G/c², and k2 is the stated closed-form expression
(8/5)C⁵(1−2C)²[2+2C(y−1)−y] divided by {2C[6−3y+3C(5y−8)] +
4C³[13−11y+C(3y−2)+2C²(1+y)] + 3(1−2C)²[2−y+2C(y−1)]·ln(1−2C)}. -/
theorem solve_tidal_output (R M r0 : ℝ) (f : ℝ → ℝ → ℝ × ℝ) :
    (solve_tidal R M r0 f).beta = (f (2 * r0) (r0 ^ 2)).1 ∧
    (solve_tidal R M r0 f).H = (f (2 * r0) (r0 ^ 2)).2 ∧
    (solve_tidal R M r0 f).R_km = R ∧
    (solve_tidal R M r0 f).M_sol = M ∧
    (solve_tidal R M r0 f).y =
      R * 1e5 * (solve_tidal R M r0 f).beta / (solve_tidal R M r0 f).H ∧
    (solve_tidal R M r0 f).C = M * MsunR / (R * 1e5) * (Gr / cr ^ 2) ∧
    (solve_tidal R M r0 f).k2 =
      8 / 5 * (solve_tidal R M r0 f).C ^ 5 * (1 - 2 * (solve_tidal R M r0 f).C) ^ 2 *
          (2 + 2 * (solve_tidal R M r0 f).C * ((solve_tidal R M r0 f).y - 1) -
            (solve_tidal R M r0 f).y) /
        (2 * (solve_tidal R M r0 f).C *
            (6 - 3 * (solve_tidal R M r0 f).y +
              3 * (solve_tidal R M r0 f).C * (5 * (solve_tidal R M r0 f).y - 8)) +
          4 * (solve_tidal R M r0 f).C ^ 3 *
            (13 - 11 * (solve_tidal R M r0 f).y +
              (solve_tidal R M r0 f).C * (3 * (solve_tidal R M r0 f).y - 2) +
              2 * (solve_tidal R M r0 f).C ^ 2 * (1 + (solve_tidal R M r0 f).y)) +
          3 * (1 - 2 * (solve_tidal R M r0 f).C) ^ 2 *
            (2 - (solve_tidal R M r0 f).y + 2 * (solve_tidal R M r0 f).C *
              ((solve_tidal R M r0 f).y - 1)) *
            Real.log (1 - 2 * (solve_tidal R M r0 f).C)) := by
  refine ⟨rfl, rfl, ?_, ?_, rfl, ?_, ?_⟩
  · show R * 1e5 / 1e5 = R
    exact mul_div_cancel_right₀ _ (by norm_num)
  · show M * MsunR / MsunR = M
    exact mul_div_cancel_right₀ _ (by norm_num [MsunR])
  · show M * MsunR / (R * 1e5) * km_to_mSunR = M * MsunR / (R * 1e5) * (Gr / cr ^ 2)
    rw [km_to_mSunR]
  · simp only [solve_tidal]
    exact (div_eq_mul_inv _ _).symm

end TOVTidal

namespace TOVModel

/-- The first entry of a nonempty `arange` grid is its start value. -/
theorem arange_headD_eq (start stop step : ℚ) (h : 0 < (stop - start) / step) :
    (arange start stop step).headD 0 = start := by
  have h1 : 0 < ⌈(stop - start) / step⌉ := Int.ceil_pos.mpr h
  have h2 : (max 0 ⌈(stop - start) / step⌉) = ⌈(stop - start) / step⌉ :=
    max_eq_right h1.le
  have h3 : ⌈(stop - start) / step⌉.toNat ≠ 0 := by omega
  obtain ⟨k, hk⟩ := Nat.exists_eq_succ_of_ne_zero h3
  simp only [arange, h2, hk, List.range_succ_eq_map]
  simp

/-- C2, counterexample: with identity interpolants, central density 1 and
dr = 1, the initial mass computed by `solve` is `4·π·dr³·eden`, not the
claimed `(4/3)·π·dr³·centralDensity`: the code (tov.py line 269) carries no
1/3 factor, and its density factor is `en_dens(press(c_dens))`, not the
central density itself. -/
theorem solve_init_mass_counterexample :
    solve_init id id 0 (2 * conv_en) 1 1 1 ≠
      Except.ok (1, (1 : ℚ) * conv_en, 4 / 3 * pi * 1 ^ 3 * ((1 : ℚ) * conv_en)) := by
  intro h
  have hno : ¬((1 : ℚ) * conv_en < 0 ∨ (1 : ℚ) * conv_en > 2 * conv_en) := by
    have hpos : (0 : ℚ) < conv_en := by norm_num [conv_en, MeV_fm3_to_pa_cgs, c]
    push_neg
    constructor <;> nlinarith
  have hh : (arange 1 (1 + 1) 1).headD 0 = 1 := by
    apply arange_headD_eq
    norm_num
  have hval : solve_init id id 0 (2 * conv_en) 1 1 1 =
      .ok (1, (1 : ℚ) * conv_en, 4.0 * pi * 1 ^ 3 * ((1 : ℚ) * conv_en)) := by
    simp only [solve_init, check_density, if_neg hno, hh, id]
    rfl
  have h2 := Except.ok.inj (hval.symm.trans h)
  have h3 := congrArg (fun t : ℚ × ℚ × ℚ => t.2.2) h2
  norm_num [pi, conv_en, MeV_fm3_to_pa_cgs, c] at h3

/-- C2, amended: for every in-range central density and positive `dr`,
`rmax`, `solve` starts integration at r = dr with initial pressure
P₀ = press(converted central density) and initial mass
m₀ = 4·π·dr³·en_dens(press(converted central density)) — the code uses the
factor 4π (not (4/3)π) and the round-trip density `en_dens(press(·))`
rather than the central density itself. -/
theorem solve_init_conditions (press en_dens : ℚ → ℚ) (mn mx c_dens rmax dr : ℚ)
    (h1 : mn ≤ c_dens * conv_en) (h2 : c_dens * conv_en ≤ mx)
    (hdr : 0 < dr) (hrmax : 0 < rmax) :
    solve_init press en_dens mn mx c_dens rmax dr =
      .ok (dr, press (c_dens * conv_en),
           4 * pi * dr ^ 3 * en_dens (press (c_dens * conv_en))) := by
  have hno : ¬(c_dens * conv_en < mn ∨ c_dens * conv_en > mx) := by
    push_neg
    exact ⟨h1, h2⟩
  have hh : (arange dr (rmax + dr) dr).headD 0 = dr := by
    apply arange_headD_eq
    rw [add_sub_cancel_right]
    exact div_pos hrmax hdr
  simp only [solve_init, check_density, if_neg hno, hh]
  norm_num

theorem solve_init_conditions_witness :
    ((0 : ℚ) ≤ 1 * conv_en ∧ (1 : ℚ) * conv_en ≤ 2 * conv_en ∧ (0 : ℚ) < 1) ∧
    solve_init id id 0 (2 * conv_en) 1 1 1 =
      .ok (1, (1 : ℚ) * conv_en, 4 * pi * 1 ^ 3 * ((1 : ℚ) * conv_en)) := by
  have hpos : (0 : ℚ) < conv_en := by norm_num [conv_en, MeV_fm3_to_pa_cgs, c]
  have ha : (0 : ℚ) ≤ 1 * conv_en := by nlinarith
  have hb : (1 : ℚ) * conv_en ≤ 2 * conv_en := by nlinarith
  exact ⟨⟨ha, hb, one_pos⟩,
    solve_init_conditions id id 0 (2 * conv_en) 1 1 1 ha hb one_pos one_pos⟩

/-- `massDiff` has one entry fewer than the mass column. -/
theorem massDiff_length (m : List ℚ) : (massDiff m).length = m.length - 1 := by
  simp [massDiff]

/-- Entry `i` of `massDiff` is the relative mass increment at grid index `i`. -/
theorem massDiff_getD (m : List ℚ) (i : ℕ) (h : i < m.length - 1) :
    (massDiff m).getD i 0 = (m.getD (i + 1) 0 - m.getD i 0) / m.getD (i + 1) 0 := by
  simp [massDiff, List.getD_eq_getElem?_getD, List.getElem?_map, List.getElem?_range, h]

/-- The boundary-detection loop returns the least index satisfying its
condition, for any starting point at or before that index. -/
theorem findInd_eq_from (dmrel : ℚ) (m : List ℚ) (i₀ : ℕ)
    (hlen : i₀ < (massDiff m).length)
    (hc : (massDiff m).getD i₀ 0 < dmrel ∧ m.getD i₀ 0 ≠ 0) :
    ∀ n k, i₀ - k = n → k ≤ i₀ →
      (∀ j, k ≤ j → j < i₀ → ¬((massDiff m).getD j 0 < dmrel ∧ m.getD j 0 ≠ 0)) →
      findInd dmrel m k = (i₀ : Int) := by
  intro n
  induction n with
  | zero =>
    intro k hk0 hk _
    have hki : k = i₀ := by omega
    subst hki
    rw [findInd, if_pos hlen, if_pos hc]
  | succ n ih =>
    intro k hk0 hk hmin
    have hklt : k < i₀ := by omega
    have hklen : k < (massDiff m).length := lt_trans hklt hlen
    rw [findInd, if_pos hklen, if_neg (hmin k le_rfl hklt)]
    exact ih (k + 1) (by omega) (by omega) (fun j hj1 hj2 => hmin j (by omega) hj2)

/-- C1: when the integrated mass sequence has a first index `i₀` at which the
fractional mass increment `(m[i+1]−m[i])/m[i+1]` drops below `dmrel` while
`m[i] ≠ 0`, `solve` returns R = r[ind−1]/1e5 (km) and M = m[ind−1]/Msun
(solar masses) with ind = i₀ (Python indexing, so ind−1 counts from the end
when ind = 0), and the returned profile arrays (r, e, P, m) are the first
ind elements of the grid and of the integrated columns. -/
theorem solve_surface_detection (en_dens : ℚ → ℚ) (r p m : List ℚ) (dmrel : ℚ) (i₀ : ℕ)
    (hlen : i₀ + 1 < m.length)
    (hc : (m.getD (i₀ + 1) 0 - m.getD i₀ 0) / m.getD (i₀ + 1) 0 < dmrel ∧ m.getD i₀ 0 ≠ 0)
    (hmin : ∀ j < i₀,
      ¬((m.getD (j + 1) 0 - m.getD j 0) / m.getD (j + 1) 0 < dmrel ∧ m.getD j 0 ≠ 0)) :
    solve_tail en_dens r p m dmrel =
      (pyGet r ((i₀ : Int) - 1) / 1e5, pyGet m ((i₀ : Int) - 1) / Msun,
       (r.take i₀, (p.take i₀).map en_dens, p.take i₀, m.take i₀)) := by
  have hlen' : i₀ < (massDiff m).length := by
    rw [massDiff_length]
    omega
  have hc' : (massDiff m).getD i₀ 0 < dmrel ∧ m.getD i₀ 0 ≠ 0 := by
    rw [massDiff_getD m i₀ (by omega)]
    exact hc
  have hmin' : ∀ j, 0 ≤ j → j < i₀ →
      ¬((massDiff m).getD j 0 < dmrel ∧ m.getD j 0 ≠ 0) := by
    intro j _ hj
    rw [massDiff_getD m j (by omega)]
    exact hmin j hj
  have hfi : findInd dmrel m 0 = (i₀ : Int) :=
    findInd_eq_from dmrel m i₀ hlen' hc' i₀ 0 (by omega) (by omega) hmin'
  simp only [solve_tail, hfi]
  simp [pySlice, Int.toNat_natCast]

theorem solve_surface_detection_witness :
    ((([1, 2, 2] : List ℚ).getD 2 0 - ([1, 2, 2] : List ℚ).getD 1 0) /
        ([1, 2, 2] : List ℚ).getD 2 0 < 1 / 2 ∧ ([1, 2, 2] : List ℚ).getD 1 0 ≠ 0) ∧
    solve_tail (fun x => x + 1) [100, 200, 300] [9, 8, 7] [1, 2, 2] (1 / 2) =
      (1 / 1000, 1 / Msun, ([100], [10], [9], [1])) := by
  have hc : (([1, 2, 2] : List ℚ).getD 2 0 - ([1, 2, 2] : List ℚ).getD 1 0) /
      ([1, 2, 2] : List ℚ).getD 2 0 < 1 / 2 ∧ ([1, 2, 2] : List ℚ).getD 1 0 ≠ 0 := by
    norm_num [List.getD]
  have hmin : ∀ j < 1,
      ¬((([1, 2, 2] : List ℚ).getD (j + 1) 0 - ([1, 2, 2] : List ℚ).getD j 0) /
          ([1, 2, 2] : List ℚ).getD (j + 1) 0 < 1 / 2 ∧ ([1, 2, 2] : List ℚ).getD j 0 ≠ 0) := by
    intro j hj
    interval_cases j
    norm_num [List.getD]
  refine ⟨hc, ?_⟩
  have h := solve_surface_detection (fun x => x + 1) [100, 200, 300] [9, 8, 7] [1, 2, 2]
    (1 / 2) 1 (by norm_num) hc hmin
  rw [h]
  norm_num [pyGet, List.getD]

/-- On a table sorted by energy density, the code's while-loop (takeWhile) is
the set of all points below the splice density. -/
theorem crustPart_eq_filter (crust : List (ℚ × ℚ)) (n : ℚ)
    (hs : crust.Pairwise (fun a b => a.1 ≤ b.1)) :
    crustPart crust n = crust.filter (fun q => decide (q.1 < n)) := by
  induction crust with
  | nil => rfl
  | cons q rest ih =>
    rw [List.pairwise_cons] at hs
    by_cases h : q.1 < n
    · simp only [crustPart, List.takeWhile_cons, List.filter_cons, decide_eq_true_eq, h,
        if_true]
      simpa [crustPart] using ih hs.2
    · have hall : ∀ x ∈ rest, ¬(decide (x.1 < n) = true) := by
        intro x hx
        simp only [decide_eq_true_eq]
        exact fun hlt => h (lt_of_le_of_lt (hs.1 x hx) hlt)
      simp only [crustPart, List.takeWhile_cons, List.filter_cons, decide_eq_true_eq, h,
        if_false]
      exact (List.filter_eq_nil_iff.mpr hall).symm

/-- C5: for a crust table sorted in energy density (the bundled Baym table
is), the merged EOS table is exactly the crust points with ε < ε* in their
original order followed by exactly the user points with ε ≥ ε* in their
original order, and the stored minimum density and pressure bounds become
the minimum over that merged table. -/
theorem add_crust_merged_table (g : RootResult) (crust user : List (ℚ × ℚ))
    (hs : crust.Pairwise (fun a b => a.1 ≤ b.1)) :
    add_crust g crust user =
      (crust.filter (fun q => decide (q.1 < g.x)) ++ user.filter (fun q => decide (q.1 ≥ g.x)),
       ((crust.filter (fun q => decide (q.1 < g.x)) ++
           user.filter (fun q => decide (q.1 ≥ g.x))).map Prod.fst).min?,
       ((crust.filter (fun q => decide (q.1 < g.x)) ++
           user.filter (fun q => decide (q.1 ≥ g.x))).map Prod.snd).min?) := by
  have h := crustPart_eq_filter crust g.x hs
  simp only [add_crust, userPart, h]

theorem add_crust_merged_table_witness :
    ([((1 : ℚ), (10 : ℚ)), (2, 20), (6, 60)].Pairwise (fun a b => a.1 ≤ b.1)) ∧
    add_crust ⟨3, true⟩ [((1 : ℚ), (10 : ℚ)), (2, 20), (6, 60)]
        [((2 : ℚ), (15 : ℚ)), (6, 60), (4, 40)] =
      ([((1 : ℚ), (10 : ℚ)), (2, 20), (6, 60), (4, 40)], some 1, some 10) := by
  have hs : ([((1 : ℚ), (10 : ℚ)), (2, 20), (6, 60)] : List (ℚ × ℚ)).Pairwise
      (fun a b => a.1 ≤ b.1) := by decide
  refine ⟨hs, ?_⟩
  have h := add_crust_merged_table ⟨3, true⟩ [((1 : ℚ), (10 : ℚ)), (2, 20), (6, 60)]
    [((2 : ℚ), (15 : ℚ)), (6, 60), (4, 40)] hs
  rw [h]
  norm_num [List.filter, List.min?]

end TOVModel
